import Mathlib

/-!
Shallow embedding of the cmoh schedule pipeline (parse.js, parse-api.js,
ics.js, generate.js): candidate records, deduplication, stable id
derivation (MD5), date/time materialization and calendar emission, with
theorems settling the spec claims.
-/

/-- Model of JavaScript `String.prototype.toLowerCase` for the ASCII
range used by the pipeline (maps A-Z to a-z, leaves other characters). -/
def toLowerJS (s : String) : String := ⟨s.data.map Char.toLower⟩

/-- Model of JavaScript `String.prototype.toUpperCase` for the ASCII range. -/
def toUpperJS (s : String) : String := ⟨s.data.map Char.toUpper⟩

/-- Model of JavaScript `String.prototype.trim`: drop whitespace from both
ends. -/
def trimJS (s : String) : String :=
  ⟨((s.data.dropWhile Char.isWhitespace).reverse.dropWhile Char.isWhitespace).reverse⟩

/-- A game candidate as produced by extraction in parse.js: the fields of
the object literals pushed onto `games` (parse.js lines 178-185, 300-307;
generate.js lines 253-276). -/
structure GameCandidate where
  dateStr : String
  timeStr : String
  opponent : String
  venue : String
  round : String
  rawText : String
deriving DecidableEq, Repr

/-- A canonical game record: a candidate plus the stable `id` assigned in
parse.js lines 208-217 / generate.js lines 280-287. -/
structure GameRecord where
  id : String
  dateStr : String
  timeStr : String
  opponent : String
  venue : String
  round : String
  rawText : String
deriving DecidableEq, Repr

/-- Deduplication key from parse.js line 198:
`` `${game.dateStr}-${game.timeStr}-${game.opponent}`.toLowerCase() ``. -/
def dedupKey (g : GameCandidate) : String :=
  toLowerJS (g.dateStr ++ "-" ++ g.timeStr ++ "-" ++ g.opponent)

/-- Worker for `dedupe`: `seen` is the set of keys already kept, as in the
`seen` Set of parse.js lines 195-203. -/
def dedupeAux (seen : List String) : List GameCandidate → List GameCandidate
  | [] => []
  | g :: gs =>
    if dedupKey g ∈ seen then dedupeAux seen gs
    else g :: dedupeAux (dedupKey g :: seen) gs

/-- The duplicate-removal pass of parseSchedule (parse.js lines 193-203):
keep the first candidate per key in scan order, drop later ones. -/
def dedupe (games : List GameCandidate) : List GameCandidate :=
  dedupeAux [] games

/-! MD5, modelling node's `crypto.createHash('md5')` used for the stable
ids (parse.js line 211, generate.js line 282, parse-api.js line 934).
Words are naturals taken modulo 2^32. -/

/-- 2^32, the word modulus of MD5. -/
def w32 : Nat := 4294967296

/-- UTF-8 encoding of one code point (the argument is `Char.toNat`). -/
def utf8Enc (c : Nat) : List Nat :=
  if c < 128 then [c]
  else if c < 2048 then [192 + c / 64, 128 + c % 64]
  else if c < 65536 then
    [224 + c / 4096, 128 + c / 64 % 64, 128 + c % 64]
  else
    [240 + c / 262144, 128 + c / 4096 % 64, 128 + c / 64 % 64, 128 + c % 64]

/-- The UTF-8 bytes of a string, as node's `hash.update(string)` consumes it. -/
def strBytes (s : String) : List Nat :=
  s.data.flatMap fun c => utf8Enc c.toNat

/-- MD5 padding: append 0x80, zero bytes to reach 56 mod 64, then the
64-bit little-endian bit length. -/
def md5pad (msg : List Nat) : List Nat :=
  let n := msg.length
  let z := (64 + 56 - (n + 1) % 64) % 64
  msg ++ 128 :: List.replicate z 0 ++
    (List.range 8).map fun i => 8 * n / 256 ^ i % 256

/-- The 64 MD5 sine-derived round constants. -/
def md5K : List Nat :=
  [0xd76aa478, 0xe8c7b756, 0x242070db, 0xc1bdceee,
   0xf57c0faf, 0x4787c62a, 0xa8304613, 0xfd469501,
   0x698098d8, 0x8b44f7af, 0xffff5bb1, 0x895cd7be,
   0x6b901122, 0xfd987193, 0xa679438e, 0x49b40821,
   0xf61e2562, 0xc040b340, 0x265e5a51, 0xe9b6c7aa,
   0xd62f105d, 0x02441453, 0xd8a1e681, 0xe7d3fbc8,
   0x21e1cde6, 0xc33707d6, 0xf4d50d87, 0x455a14ed,
   0xa9e3e905, 0xfcefa3f8, 0x676f02d9, 0x8d2a4c8a,
   0xfffa3942, 0x8771f681, 0x6d9d6122, 0xfde5380c,
   0xa4beea44, 0x4bdecfa9, 0xf6bb4b60, 0xbebfbc70,
   0x289b7ec6, 0xeaa127fa, 0xd4ef3085, 0x04881d05,
   0xd9d4d039, 0xe6db99e5, 0x1fa27cf8, 0xc4ac5665,
   0xf4292244, 0x432aff97, 0xab9423a7, 0xfc93a039,
   0x655b59c3, 0x8f0ccc92, 0xffeff47d, 0x85845dd1,
   0x6fa87e4f, 0xfe2ce6e0, 0xa3014314, 0x4e0811a1,
   0xf7537e82, 0xbd3af235, 0x2ad7d2bb, 0xeb86d391]

/-- Per-round left-rotation amounts of MD5. -/
def md5S : List Nat :=
  [7, 12, 17, 22, 7, 12, 17, 22, 7, 12, 17, 22, 7, 12, 17, 22,
   5, 9, 14, 20, 5, 9, 14, 20, 5, 9, 14, 20, 5, 9, 14, 20,
   4, 11, 16, 23, 4, 11, 16, 23, 4, 11, 16, 23, 4, 11, 16, 23,
   6, 10, 15, 21, 6, 10, 15, 21, 6, 10, 15, 21, 6, 10, 15, 21]

/-- Left-rotate a 32-bit word by `n` places. -/
def rotl32 (x n : Nat) : Nat := x * 2 ^ n % w32 + x / 2 ^ (32 - n)

/-- MD5 round function F. -/
def md5F (b c d : Nat) : Nat := Nat.lor (Nat.land b c) (Nat.land (w32 - 1 - b) d)

/-- MD5 round function G. -/
def md5G (b c d : Nat) : Nat := Nat.lor (Nat.land d b) (Nat.land (w32 - 1 - d) c)

/-- MD5 round function H. -/
def md5H (b c d : Nat) : Nat := Nat.xor b (Nat.xor c d)

/-- MD5 round function I. -/
def md5I (b c d : Nat) : Nat := Nat.xor c (Nat.lor b (w32 - 1 - d))

/-- One of the 64 MD5 rounds; `M` is the current chunk as 16 words. -/
def md5Round (M : List Nat) (st : Nat × Nat × Nat × Nat) (i : Nat) :
    Nat × Nat × Nat × Nat :=
  let (a, b, c, d) := st
  let fg : Nat × Nat :=
    if i < 16 then (md5F b c d, i)
    else if i < 32 then (md5G b c d, (5 * i + 1) % 16)
    else if i < 48 then (md5H b c d, (3 * i + 5) % 16)
    else (md5I b c d, (7 * i) % 16)
  let t := (a + fg.1 + md5K.getD i 0 + M.getD fg.2 0) % w32
  (d, (b + rotl32 t (md5S.getD i 0)) % w32, b, c)

/-- Decode the 64-byte chunk starting at byte `64*k` of `padded` into 16
little-endian words. -/
def md5Words (padded : List Nat) (k : Nat) : List Nat :=
  (List.range 16).map fun j =>
    let at4 := fun o => padded.getD (64 * k + 4 * j + o) 0
    at4 0 + 256 * at4 1 + 65536 * at4 2 + 16777216 * at4 3

/-- Process one 64-byte chunk of the padded message. -/
def md5Chunk (padded : List Nat) (st : Nat × Nat × Nat × Nat) (k : Nat) :
    Nat × Nat × Nat × Nat :=
  let M := md5Words padded k
  let r := (List.range 64).foldl (md5Round M) st
  ((st.1 + r.1) % w32, (st.2.1 + r.2.1) % w32,
   (st.2.2.1 + r.2.2.1) % w32, (st.2.2.2 + r.2.2.2) % w32)

/-- Lowercase hex digit. -/
def hexDigit (n : Nat) : Char :=
  if n < 10 then Char.ofNat (48 + n) else Char.ofNat (87 + n)

/-- Two lowercase hex digits of a byte. -/
def byteHex (b : Nat) : List Char := [hexDigit (b / 16), hexDigit (b % 16)]

/-- Hex rendering of one state word, little-endian byte order as in the
MD5 digest. -/
def wordHexLE (w : Nat) : List Char :=
  byteHex (w % 256) ++ byteHex (w / 256 % 256) ++
    byteHex (w / 65536 % 256) ++ byteHex (w / 16777216 % 256)

/-- The full lowercase hex MD5 digest of a string: the model of
`crypto.createHash('md5').update(s).digest('hex')`. -/
def md5hex (s : String) : String :=
  let padded := md5pad (strBytes s)
  let st := (List.range (padded.length / 64)).foldl (md5Chunk padded)
    (0x67452301, 0xefcdab89, 0x98badcfe, 0x10325476)
  ⟨wordHexLE st.1 ++ wordHexLE st.2.1 ++ wordHexLE st.2.2.1 ++ wordHexLE st.2.2.2⟩

/-! Stable id derivation (parse.js lines 207-217, generate.js lines
279-288, parse-api.js lines 932-937). -/

/-- The hash input of parse.js line 210:
`` `${game.dateStr}-${game.timeStr}-${game.opponent}-${game.venue}-${game.round}` ``. -/
def uidString (g : GameCandidate) : String :=
  g.dateStr ++ "-" ++ g.timeStr ++ "-" ++ g.opponent ++ "-" ++ g.venue ++ "-" ++ g.round

/-- The stable id of parse.js lines 211-215: namespace tag plus the first
12 hex characters of the MD5 digest of `uidString`. -/
def makeId (g : GameCandidate) : String :=
  "mc2026-can-men-" ++ (md5hex (uidString g)).take 12

/-- The id-assignment step closing parseSchedule (parse.js lines 208-217):
spread each surviving candidate and attach its derived id. -/
def assignIds (games : List GameCandidate) : List GameRecord :=
  games.map fun g =>
    { id := makeId g, dateStr := g.dateStr, timeStr := g.timeStr,
      opponent := g.opponent, venue := g.venue, round := g.round,
      rawText := g.rawText }

/-- The hard-coded placeholder candidates of generate.js lines 252-277. -/
def fallbackCandidates : List GameCandidate :=
  [{ dateStr := "06/02/2026", timeStr := "20:00", opponent := "TBD",
     venue := "Milano Cortina 2026", round := "Preliminary",
     rawText := "Canada vs TBD - Preliminary Round" },
   { dateStr := "08/02/2026", timeStr := "20:00", opponent := "TBD",
     venue := "Milano Cortina 2026", round := "Preliminary",
     rawText := "Canada vs TBD - Preliminary Round" },
   { dateStr := "10/02/2026", timeStr := "20:00", opponent := "TBD",
     venue := "Milano Cortina 2026", round := "Preliminary",
     rawText := "Canada vs TBD - Preliminary Round" }]

/-- getFallbackGames (generate.js lines 248-288): the placeholder
candidates with the same id derivation as parseSchedule. -/
def getFallbackGames : List GameRecord :=
  fallbackCandidates.map fun g =>
    { id := "mc2026-can-men-" ++
        (md5hex (g.dateStr ++ "-" ++ g.timeStr ++ "-" ++ g.opponent ++ "-" ++
          g.venue ++ "-" ++ g.round)).take 12,
      dateStr := g.dateStr, timeStr := g.timeStr, opponent := g.opponent,
      venue := g.venue, round := g.round, rawText := g.rawText }

/-! Country and team-name resolvers (parse.js lines 387-436). -/

/-- The code table of expandCountryCode (parse.js lines 388-404),
modelling the JS object literal as an association list. -/
def codeMap : List (String × String) :=
  [("USA", "United States"), ("SWE", "Sweden"), ("FIN", "Finland"),
   ("CZE", "Czechia"), ("SVK", "Slovakia"), ("SUI", "Switzerland"),
   ("GER", "Germany"), ("NOR", "Norway"), ("DEN", "Denmark"),
   ("LAT", "Latvia"), ("AUT", "Austria"), ("FRA", "France"),
   ("GBR", "Great Britain"), ("RUS", "ROC"), ("ROC", "ROC")]

/-- expandCountryCode (parse.js lines 387-406): exact-key lookup in
`codeMap`, the code itself when absent (`codeMap[code] || code`). -/
def expandCountryCode (code : String) : String :=
  match codeMap.lookup code with
  | some name => name
  | none => code

/-- The name table of normalizeOpponent (parse.js lines 412-428). -/
def normalizations : List (String × String) :=
  [("czech republic", "Czechia"), ("czechia", "Czechia"),
   ("usa", "United States"), ("us", "United States"),
   ("uk", "Great Britain"), ("great britain", "Great Britain"),
   ("russia", "ROC"), ("russian federation", "ROC"),
   ("switzerland", "Switzerland"), ("sweden", "Sweden"),
   ("finland", "Finland"), ("slovakia", "Slovakia"),
   ("germany", "Germany"), ("norway", "Norway"), ("denmark", "Denmark")]

/-- normalizeOpponent (parse.js lines 411-436): a 3-character input equal
to its own uppercasing is routed through expandCountryCode; otherwise the
lowercased, trimmed input is looked up in `normalizations`, falling back
to the input itself. -/
def normalizeOpponent (opponent : String) : String :=
  let lower := trimJS (toLowerJS opponent)
  if opponent.length = 3 ∧ opponent = toUpperJS opponent then
    expandCountryCode opponent
  else
    match normalizations.lookup lower with
    | some name => name
    | none => opponent

/-! Date and time materialization (ics.js lines 10-107). -/

/-- Worker for `splitDateSeps`; `acc` holds the current field reversed. -/
def splitSepsAux (acc : List Char) : List Char → List String
  | [] => [⟨acc.reverse⟩]
  | c :: rest =>
    if c = '/' ∨ c = '-' then ⟨acc.reverse⟩ :: splitSepsAux [] rest
    else splitSepsAux (c :: acc) rest

/-- Model of `` dateStr.split(/[\/\-]/) `` (ics.js line 15). -/
def splitDateSeps (s : String) : List String := splitSepsAux [] s.data

/-- Numeric value of a digit character. -/
def digitVal (c : Char) : Nat := c.toNat - 48

/-- Value of a list of decimal digit characters. -/
def digitsVal (l : List Char) : Nat :=
  l.foldl (fun acc c => acc * 10 + digitVal c) 0

/-- Model of JavaScript `parseInt` with radix 10 as applied by ics.js:
skip leading whitespace, optional sign, then leading decimal digits;
`none` models `NaN` (no digits). -/
def parseIntJS (s : String) : Option Int :=
  let cs := s.data.dropWhile Char.isWhitespace
  let signAndRest : Int × List Char :=
    match cs with
    | '-' :: t => (-1, t)
    | '+' :: t => (1, t)
    | _ => (1, cs)
  let ds := signAndRest.2.takeWhile Char.isDigit
  if ds.isEmpty then none else some (signAndRest.1 * digitsVal ds)

/-- JavaScript `>` between a possibly-NaN number and a literal: any
comparison with NaN is false. -/
def optGtInt (o : Option Int) (n : Int) : Bool :=
  match o with
  | some v => decide (n < v)
  | none => false

/-- The date-branch of parseDateTime (ics.js lines 12-43): split the date
string, then resolve the three parts into (day, month, year) with month
0-indexed; `none` components model `NaN`. When the first part exceeds 12
the format is DD/MM/YYYY, when only the second does it is MM/DD/YYYY, and
in the ambiguous case DD/MM/YYYY is assumed. -/
def parseDateParts (dateStr : String) :
    Except String (Option Int × Option Int × Option Int) :=
  match splitDateSeps dateStr with
  | [s1, s2, s3] =>
    let part1 := parseIntJS s1
    let part2 := parseIntJS s2
    let part3 := parseIntJS s3
    if optGtInt part1 12 then .ok (part1, part2.map (· - 1), part3)
    else if optGtInt part2 12 then .ok (part2, part1.map (· - 1), part3)
    else .ok (part1, part2.map (· - 1), part3)
  | _ => .error ("Invalid date format: " ++ dateStr)

/-- One attempt of the time regex `/(\d{1,2}):(\d{2})\s*(am|pm|AM|PM)?/`
at a fixed position, with `n` digits for the hour group (the greedy
engine tries `n = 2` before `n = 1`). Returns the hour digits, minute
digits and the optional raw period capture. -/
def timeMatchCore (cs : List Char) (n : Nat) :
    Option (String × String × Option String) :=
  let hd := cs.take n
  if hd.length = n ∧ hd.all Char.isDigit then
    match cs.drop n with
    | ':' :: m1 :: m2 :: rest =>
      if m1.isDigit ∧ m2.isDigit then
        let rest2 := rest.dropWhile Char.isWhitespace
        let per :=
          if rest2.take 2 = ['a', 'm'] then some "am"
          else if rest2.take 2 = ['p', 'm'] then some "pm"
          else if rest2.take 2 = ['A', 'M'] then some "AM"
          else if rest2.take 2 = ['P', 'M'] then some "PM"
          else none
        some (⟨hd⟩, ⟨[m1, m2]⟩, per)
      else none
    | _ => none
  else none

/-- Attempt the time pattern at one position: two hour digits first, then
one (regex backtracking order). -/
def timeMatchAt (cs : List Char) : Option (String × String × Option String) :=
  match timeMatchCore cs 2 with
  | some r => some r
  | none => timeMatchCore cs 1

/-- Scan left to right for the first position where the time pattern
matches, as `String.prototype.match` does. -/
def timeScan : List Char → Option (String × String × Option String)
  | [] => none
  | c :: rest =>
    match timeMatchAt (c :: rest) with
    | some r => some r
    | none => timeScan rest

/-- Model of `` timeStr.match(/(\d{1,2}):(\d{2})\s*(am|pm|AM|PM)?/) ``
(ics.js line 47), returning the three capture groups. -/
def timeMatchJS (s : String) : Option (String × String × Option String) :=
  timeScan s.data

/-- Days from 1970-01-01 of a proleptic Gregorian date, month 1-indexed;
the day may exceed the month length, in which case it rolls over exactly
as JavaScript `Date.UTC` does. -/
def daysFromCivil (y m d : Int) : Int :=
  let y' := if m ≤ 2 then y - 1 else y
  let era := (if 0 ≤ y' then y' else y' - 399) / 400
  let yoe := y' - era * 400
  let mp := (m + 9) % 12
  let doy := (153 * mp + 2) / 5 + d - 1
  let doe := yoe * 365 + yoe / 4 - yoe / 100 + doy
  era * 146097 + doe - 719468

/-- Milliseconds since the epoch of a UTC instant, month 1-indexed. -/
def utcMillis (y mo d h mi : Int) : Int :=
  daysFromCivil y mo d * 86400000 + h * 3600000 + mi * 60000

/-- Model of `Date.UTC(year, month, day, hours, minutes)` with the
0-indexed month JavaScript uses (ics.js line 92). -/
def jsDateUTC (y m0 d h mi : Int) : Int := utcMillis y (m0 + 1) d h mi

/-- parseDateTime (ics.js lines 10-107): parse and resolve the date, match
the time pattern, apply am/pm conversion, validate ranges, and convert the
Rome wall-clock instant to UTC by subtracting the fixed 1-hour offset.
Errors model the thrown exceptions. -/
def parseDateTime (dateStr timeStr : String) : Except String Int := do
  let (dayO, monthO, yearO) ← parseDateParts dateStr
  match timeMatchJS timeStr with
  | none => .error ("Invalid time format: " ++ timeStr)
  | some (h1, m1, per) =>
    let hours0 : Int := digitsVal h1.data
    let minutes : Int := digitsVal m1.data
    let period := per.map toLowerJS
    let hours : Int :=
      if period = some "pm" ∧ hours0 ≠ 12 then hours0 + 12
      else if period = some "am" ∧ hours0 = 12 then 0
      else hours0
    match dayO, monthO, yearO with
    | some day, some month, some year =>
      if month < 0 ∨ 11 < month then
        .error "Invalid month"
      else if day < 1 ∨ 31 < day then
        .error "Invalid day"
      else if hours < 0 ∨ 23 < hours then
        .error "Invalid hours"
      else if minutes < 0 ∨ 59 < minutes then
        .error "Invalid minutes"
      else
        .ok (jsDateUTC year month day hours minutes - 3600000)
    | _, _, _ => .error "Invalid parsed values"

deriving instance DecidableEq for Except

/-! Calendar emission (ics.js lines 115-200). The serialized document is
modelled by its list of event blocks; the ical-generator library renders
them but adds no events of its own. -/

/-- The deterministic fields of one VEVENT block built by
`calendar.createEvent` (ics.js lines 159-175); the two wall-clock stamp
fields are outside the model. -/
structure CalendarEvent where
  uid : String
  startMs : Int
  endMs : Int
  summary : String
  description : String
  location : String
  status : String
  transp : String
deriving DecidableEq, Repr

/-- The per-game body of the loop in generateICS (ics.js lines 144-185):
parse the date/time (any error is caught and the game skipped) and build
the event fields. -/
def materializeEvent (sourceUrl : String) (g : GameRecord) :
    Except String CalendarEvent :=
  match parseDateTime g.dateStr g.timeStr with
  | .error e => .error e
  | .ok startMs =>
    let endMs := startMs + 9000000
    let normalizedOpponent := normalizeOpponent g.opponent
    .ok { uid := g.id ++ "@olympic-hockey-ics.github.io"
          startMs := startMs
          endMs := endMs
          summary := "Canada vs " ++ normalizedOpponent ++ " (Men's Olympic Hockey)"
          description := "Men's Olympic Hockey - " ++ g.round ++ "\n\nOpponent: " ++
            normalizedOpponent ++ "\nVenue: " ++ g.venue ++ "\n\nSource: " ++ sourceUrl
          location := g.venue ++ ", Milano Cortina 2026"
          status := "CONFIRMED"
          transp := "OPAQUE" }

/-- generateICS (ics.js lines 115-200): throw on an empty games list,
materialize each game catching per-game errors, throw when no event was
created, otherwise return the document (modelled by its event list). -/
def generateICS (games : List GameRecord) (sourceUrl : String) :
    Except String (List CalendarEvent) :=
  if games.length = 0 then
    .error "Cannot generate ICS calendar with no games"
  else
    let events := games.filterMap fun g => (materializeEvent sourceUrl g).toOption
    if events.length = 0 then
      .error "Failed to create any events"
    else
      .ok events

/-! The IIHF JSON API extractor (parse-api.js, given as part_004 lines
824-954). -/

/-- One entry of the IIHF JSON feed, with the fields parseIIHFAPI reads.
`Option` models fields that may be absent; the optional chaining
`game.HomeTeam?.TeamCode` is flattened into one optional code. -/
structure APIGame where
  HomeTeamCode : Option String
  GuestTeamCode : Option String
  GameDateTime : Option String
  GameDateTimeUTC : Option String
  PhaseId : Option String
  Venue : Option String
  Status : Option String
  GameIsTBD : Bool
deriving DecidableEq, Repr

/-- A record pushed by parseIIHFAPI (parse-api.js lines 936-946): a game
record plus the stored UTC instant. -/
structure APIGameRecord where
  id : String
  dateStr : String
  timeStr : String
  opponent : String
  venue : String
  round : String
  rawText : String
  utcDate : Int
deriving DecidableEq, Repr

/-- Drop the extra `utcDate` field: parseIIHFAPI output is passed directly
to generateICS (generate.js line 133 and 199), which reads only the
GameRecord fields. -/
def apiToRecord (r : APIGameRecord) : GameRecord :=
  { id := r.id, dateStr := r.dateStr, timeStr := r.timeStr,
    opponent := r.opponent, venue := r.venue, round := r.round,
    rawText := r.rawText }

/-- Take exactly `n` decimal digits from the front, returning them and the
rest. -/
def takeDigits (n : Nat) (cs : List Char) : Option (List Char × List Char) :=
  let hd := cs.take n
  if hd.length = n ∧ hd.all Char.isDigit then some (hd, cs.drop n) else none

/-- One attempt of the timestamp regex
`/(\d{4})-(\d{2})-(\d{2})T(\d{2}):(\d{2}):(\d{2})/` (parse-api.js line
888) at a fixed position, returning the year, month, day, hour and minute
captures. -/
def isoMatchAt (cs : List Char) :
    Option (String × String × String × String × String) := do
  let (y, r1) ← takeDigits 4 cs
  guard (r1.take 1 = ['-'])
  let (mo, r2) ← takeDigits 2 (r1.drop 1)
  guard (r2.take 1 = ['-'])
  let (d, r3) ← takeDigits 2 (r2.drop 1)
  guard (r3.take 1 = ['T'])
  let (h, r4) ← takeDigits 2 (r3.drop 1)
  guard (r4.take 1 = [':'])
  let (mi, r5) ← takeDigits 2 (r4.drop 1)
  guard (r5.take 1 = [':'])
  let (_, _) ← takeDigits 2 (r5.drop 1)
  pure (⟨y⟩, ⟨mo⟩, ⟨d⟩, ⟨h⟩, ⟨mi⟩)

/-- Scan left to right for the first position where the timestamp pattern
matches. -/
def isoScan : List Char → Option (String × String × String × String × String)
  | [] => none
  | c :: rest =>
    match isoMatchAt (c :: rest) with
    | some r => some r
    | none => isoScan rest

/-- Model of `` game.GameDateTime.match(/(\d{4})-(\d{2})-(\d{2})T(\d{2}):(\d{2}):(\d{2})/) ``. -/
def isoLocalMatch (s : String) : Option (String × String × String × String × String) :=
  isoScan s.data

/-- Model of `new Date(s)` on the ISO UTC timestamps of the feed
(parse-api.js line 908): the instant in milliseconds, or `none` for an
invalid date (`isNaN(date.getTime())`). -/
def parseDateJS (s : String) : Option Int :=
  match isoLocalMatch s with
  | none => none
  | some (y, mo, d, h, mi) =>
    let yv : Int := digitsVal y.data
    let mov : Int := digitsVal mo.data
    let dv : Int := digitsVal d.data
    let hv : Int := digitsVal h.data
    let miv : Int := digitsVal mi.data
    if 1 ≤ mov ∧ mov ≤ 12 ∧ 1 ≤ dv ∧ dv ≤ 31 ∧ hv ≤ 23 ∧ miv ≤ 59 then
      some (utcMillis yv mov dv hv miv)
    else none

/-- Substring test used for `PhaseId.includes(...)`: does `needle` start
`hay`? -/
def startsWithL : List Char → List Char → Bool
  | [], _ => true
  | _ :: _, [] => false
  | a :: as, b :: bs => a = b && startsWithL as bs

/-- Model of JavaScript `String.prototype.includes`. -/
def includesL (needle : List Char) : List Char → Bool
  | [] => needle.isEmpty
  | c :: rest => startsWithL needle (c :: rest) || includesL needle rest

/-- Substring containment on strings. -/
def strIncludes (hay needle : String) : Bool := includesL needle.data hay.data

/-- The PhaseId-to-round mapping of parse-api.js lines 914-927. -/
def roundFromPhase (phaseId : String) : String :=
  if strIncludes phaseId "Qualification" || strIncludes phaseId "QualificationPlay-off" then
    "Qualifying"
  else if strIncludes phaseId "Quarterfinal" || strIncludes phaseId "Quarter" then
    "Quarterfinal"
  else if strIncludes phaseId "Semifinal" || strIncludes phaseId "Semi" then
    "Semifinal"
  else if strIncludes phaseId "Final" || strIncludes phaseId "Gold" ||
      strIncludes phaseId "Bronze" then
    "Final"
  else if strIncludes phaseId "Preliminary" || strIncludes phaseId "Prelim" then
    "Preliminary"
  else "Preliminary"

/-- The opponent code resolution of parse-api.js line 876:
`homeTeam === 'CAN' ? guestTeam : homeTeam`. -/
def resolvedOpponentCode (e : APIGame) : Option String :=
  if e.HomeTeamCode = some "CAN" then e.GuestTeamCode else e.HomeTeamCode

/-- The body of the forEach in parseIIHFAPI (parse-api.js lines 861-949)
for one feed entry: `.ok none` models an early `return` (entry skipped),
`.ok (some r)` a pushed record, `.error` an uncaught exception. Reading
`.match` of an absent `GameDateTime` is the one way the body can throw. -/
def processEntry (e : APIGame) : Except String (Option APIGameRecord) :=
  if e.GameIsTBD ∨ e.Status ≠ some "UPCOMING" then .ok none
  else if e.HomeTeamCode ≠ some "CAN" ∧ e.GuestTeamCode ≠ some "CAN" then .ok none
  else
    match resolvedOpponentCode e with
    | none => .ok none
    | some code =>
      if code = "" ∨ code = "TBD" then .ok none
      else
        let opponent := expandCountryCode code
        match e.GameDateTime with
        | none => .error "TypeError: cannot read match of undefined"
        | some gdt =>
          match isoLocalMatch gdt with
          | none => .ok none
          | some (y, mo, d, h, mi) =>
            let dateStr := d ++ "/" ++ mo ++ "/" ++ y
            let timeStr := h ++ ":" ++ mi
            match e.GameDateTimeUTC with
            | none => .ok none
            | some u =>
              if u = "" then .ok none
              else
                match parseDateJS u with
                | none => .ok none
                | some utcMs =>
                  let round := roundFromPhase (e.PhaseId.getD "")
                  let venue :=
                    match e.Venue with
                    | some v => if v = "" then "Milano Cortina 2026" else v
                    | none => "Milano Cortina 2026"
                  let uid := dateStr ++ "-" ++ timeStr ++ "-" ++ opponent ++ "-" ++
                    venue ++ "-" ++ round
                  .ok (some
                    { id := "mc2026-can-men-" ++ (md5hex uid).take 12
                      dateStr := dateStr, timeStr := timeStr
                      opponent := opponent, venue := venue, round := round
                      rawText := (e.HomeTeamCode.getD "undefined") ++ " vs " ++
                        (e.GuestTeamCode.getD "undefined") ++ " - " ++ round
                      utcDate := utcMs })

/-- parseIIHFAPI (parse-api.js lines 856-954): process the feed entries in
order, collecting pushed records; an uncaught per-entry exception aborts
the whole call. -/
def parseIIHFAPI (l : List APIGame) : Except String (List APIGameRecord) :=
  l.foldlM (fun acc e => (processEntry e).map fun o => acc ++ o.toList) []

/-! Concrete inputs used by the scenario theorems. -/

/-- The feed entry of Scenario B: Czechia hosts Canada in a quarterfinal;
the local kickoff 16:40 Rome time corresponds to the UTC timestamp
2026-02-12T15:40:00Z. -/
def scenarioBEntry : APIGame :=
  { HomeTeamCode := some "CZE", GuestTeamCode := some "CAN",
    GameDateTime := some "2026-02-12T16:40:00",
    GameDateTimeUTC := some "2026-02-12T15:40:00Z",
    PhaseId := some "MQuarterfinals", Venue := some "Milano Rho",
    Status := some "UPCOMING", GameIsTBD := false }

/-- A feed entry flagged TBD whose team codes nevertheless match the
tracked team (Scenario D). -/
def tbdFlaggedEntry : APIGame :=
  { HomeTeamCode := some "CAN", GuestTeamCode := some "USA",
    GameDateTime := some "2026-02-12T16:40:00",
    GameDateTimeUTC := some "2026-02-12T15:40:00Z",
    PhaseId := some "Preliminary", Venue := some "Milano Rho",
    Status := some "UPCOMING", GameIsTBD := true }

/-- A Canada feed entry whose `GameDateTime` field is absent while its UTC
timestamp is present and valid. -/
def missingLocalTimeEntry : APIGame :=
  { HomeTeamCode := some "CAN", GuestTeamCode := some "USA",
    GameDateTime := none,
    GameDateTimeUTC := some "2026-02-12T15:40:00Z",
    PhaseId := some "Preliminary", Venue := none,
    Status := some "UPCOMING", GameIsTBD := false }

/-- First half of a colliding candidate pair: its key
"06-02-2026-20:00-tbd" can also arise from a different field split. -/
def collideA : GameCandidate :=
  { dateStr := "06-02-2026", timeStr := "20:00", opponent := "TBD",
    venue := "Milano Rho", round := "Preliminary", rawText := "row 1" }

/-- Second half of the colliding pair: a different
(dateStr, timeStr, opponent) triple with the same deduplication key. -/
def collideB : GameCandidate :=
  { dateStr := "06", timeStr := "02-2026-20:00", opponent := "TBD",
    venue := "Milano Rho", round := "Preliminary", rawText := "row 2" }

/-! Helper lemmas. -/

/-- Sanity anchors for the MD5 model (RFC 1321 test vectors). -/
theorem md5hex_vectors :
    md5hex "" = "d41d8cd98f00b204e9800998ecf8427e" ∧
    md5hex "abc" = "900150983cd24fb0d6963f7d28e17f72" := by decide

/-- The deduplication pass only removes candidates, in order. -/
theorem dedupeAux_sublist (l : List GameCandidate) :
    ∀ seen, List.Sublist (dedupeAux seen l) l := by
  induction l with
  | nil => intro seen; simp [dedupeAux]
  | cons g gs ih =>
    intro seen
    by_cases h : dedupKey g ∈ seen
    · simpa [dedupeAux, h] using (ih seen).cons g
    · simpa [dedupeAux, h] using (ih (dedupKey g :: seen)).cons₂ g

/-- No kept candidate carries a key that was already seen. -/
theorem dedupeAux_key_not_seen (l : List GameCandidate) :
    ∀ seen g, g ∈ dedupeAux seen l → dedupKey g ∉ seen := by
  induction l with
  | nil => intro seen g h; simp [dedupeAux] at h
  | cons g₀ gs ih =>
    intro seen g h
    by_cases h₀ : dedupKey g₀ ∈ seen
    · exact ih seen g (by simpa [dedupeAux, h₀] using h)
    · rw [dedupeAux, if_neg h₀] at h
      rcases List.mem_cons.mp h with rfl | hmem
      · exact h₀
      · intro hc
        exact ih _ g hmem (List.mem_cons_of_mem _ hc)

/-- Kept candidates have pairwise distinct keys. -/
theorem dedupeAux_keys_nodup (l : List GameCandidate) :
    ∀ seen, ((dedupeAux seen l).map dedupKey).Nodup := by
  induction l with
  | nil => intro seen; simp [dedupeAux]
  | cons g₀ gs ih =>
    intro seen
    by_cases h₀ : dedupKey g₀ ∈ seen
    · simpa [dedupeAux, h₀] using ih seen
    · rw [dedupeAux, if_neg h₀]
      refine List.nodup_cons.mpr ⟨?_, ih _⟩
      intro hc
      rcases List.mem_map.mp hc with ⟨g, hg, hkey⟩
      exact dedupeAux_key_not_seen gs _ g hg (by simp [hkey])

/-- Every unseen key present in the input is represented in the output. -/
theorem dedupeAux_covers (l : List GameCandidate) :
    ∀ seen g, g ∈ l → dedupKey g ∉ seen →
      ∃ g', g' ∈ dedupeAux seen l ∧ dedupKey g' = dedupKey g := by
  induction l with
  | nil => intro seen g h; simp at h
  | cons g₀ gs ih =>
    intro seen g hmem hunseen
    rcases List.mem_cons.mp hmem with rfl | hg
    · rw [dedupeAux, if_neg hunseen]
      exact ⟨g, List.mem_cons_self _ _, rfl⟩
    · by_cases h₀ : dedupKey g₀ ∈ seen
      · rw [dedupeAux, if_pos h₀]
        exact ih seen g hg hunseen
      · rw [dedupeAux, if_neg h₀]
        by_cases hk : dedupKey g = dedupKey g₀
        · exact ⟨g₀, List.mem_cons_self _ _, hk.symm⟩
        · obtain ⟨g', hg', hkey⟩ := ih (dedupKey g₀ :: seen) g hg
            (by simp [hk, hunseen])
          exact ⟨g', List.mem_cons_of_mem _ hg', hkey⟩

/-- Each kept candidate is the first input candidate bearing its key. -/
theorem dedupeAux_first (l : List GameCandidate) :
    ∀ seen g, g ∈ dedupeAux seen l →
      l.find? (fun x => dedupKey x == dedupKey g) = some g := by
  induction l with
  | nil => intro seen g h; simp [dedupeAux] at h
  | cons g₀ gs ih =>
    intro seen g h
    by_cases h₀ : dedupKey g₀ ∈ seen
    · rw [dedupeAux, if_pos h₀] at h
      have hne : dedupKey g ∉ seen := dedupeAux_key_not_seen gs seen g h
      have : dedupKey g₀ ≠ dedupKey g := fun hc => hne (hc ▸ h₀)
      rw [List.find?_cons_of_neg _ (by simpa using this)]
      exact ih seen g h
    · rw [dedupeAux, if_neg h₀] at h
      rcases List.mem_cons.mp h with rfl | hmem
      · exact List.find?_cons_of_pos _ (by simp)
      · have hne := dedupeAux_key_not_seen gs (dedupKey g₀ :: seen) g hmem
        have : dedupKey g₀ ≠ dedupKey g := by
          intro hc; exact hne (by simp [hc])
        rw [List.find?_cons_of_neg _ (by simpa using this)]
        exact ih _ g hmem

/-- A materialized event exists exactly when the record's date and time
parse. -/
theorem materializeEvent_toOption_none (url : String) (g : GameRecord) :
    (materializeEvent url g).toOption = none ↔
      (parseDateTime g.dateStr g.timeStr).isOk = false := by
  cases h : parseDateTime g.dateStr g.timeStr <;>
    simp [materializeEvent, h, Except.isOk, Except.toBool, Except.toOption]

/-! Claim theorems. -/

/-- C1: every game record produced by parseSchedule's id-assignment step
or by getFallbackGames carries an id that is a pure function of
(dateStr, timeStr, opponent, venue, round) — the fixed namespace tag
"mc2026-can-men-" followed by the first 12 hex characters of the MD5
digest of "dateStr-timeStr-opponent-venue-round" — independent of rawText
and of the record's position in the list. -/
theorem stable_id_pure_function :
    (∀ g₁ g₂ : GameCandidate,
      g₁.dateStr = g₂.dateStr → g₁.timeStr = g₂.timeStr →
      g₁.opponent = g₂.opponent → g₁.venue = g₂.venue → g₁.round = g₂.round →
      makeId g₁ = makeId g₂) ∧
    (∀ g : GameCandidate,
      makeId g = "mc2026-can-men-" ++
        (md5hex (g.dateStr ++ "-" ++ g.timeStr ++ "-" ++ g.opponent ++ "-" ++
          g.venue ++ "-" ++ g.round)).take 12) ∧
    (∀ gs : List GameCandidate,
      (assignIds gs).map GameRecord.id = gs.map makeId) ∧
    getFallbackGames.map GameRecord.id = fallbackCandidates.map makeId := by
  refine ⟨?_, ?_, ?_, ?_⟩
  · intro g₁ g₂ h1 h2 h3 h4 h5
    unfold makeId uidString
    rw [h1, h2, h3, h4, h5]
  · intro g; rfl
  · intro gs; simp [assignIds]
  · rfl

/-- Witness for C1: two fallback-shaped candidates that differ only in
rawText receive the same id. -/
theorem stable_id_pure_function_witness :
    makeId { dateStr := "06/02/2026", timeStr := "20:00", opponent := "TBD",
             venue := "Milano Cortina 2026", round := "Preliminary",
             rawText := "Canada vs TBD - Preliminary Round" } =
    makeId { dateStr := "06/02/2026", timeStr := "20:00", opponent := "TBD",
             venue := "Milano Cortina 2026", round := "Preliminary",
             rawText := "a different scrap of source text" } :=
  stable_id_pure_function.1 _ _ rfl rfl rfl rfl rfl

/-- C2: deduplication keeps exactly the first candidate in scan order for
each key — the case-insensitive key built from (dateStr, timeStr,
opponent) — and discards every later candidate with the same key; two
candidates that differ only in rawText share a key, and exactly one
record survives for them. -/
theorem dedupe_first_seen_wins (games : List GameCandidate) :
    List.Sublist (dedupe games) games ∧
    ((dedupe games).map dedupKey).Nodup ∧
    (∀ g ∈ games, ∃ g', g' ∈ dedupe games ∧ dedupKey g' = dedupKey g) ∧
    (∀ g' ∈ dedupe games,
      games.find? (fun x => dedupKey x == dedupKey g') = some g') ∧
    (∀ g₁ g₂ : GameCandidate,
      g₁.dateStr = g₂.dateStr → g₁.timeStr = g₂.timeStr →
      g₁.opponent = g₂.opponent → dedupe [g₁, g₂] = [g₁]) := by
  refine ⟨dedupeAux_sublist games [], dedupeAux_keys_nodup games [],
    ?_, ?_, ?_⟩
  · intro g hg
    exact dedupeAux_covers games [] g hg (by simp)
  · intro g' hg'
    exact dedupeAux_first games [] g' hg'
  · intro g₁ g₂ h1 h2 h3
    have hkey : dedupKey g₂ = dedupKey g₁ := by
      unfold dedupKey; rw [h1, h2, h3]
    simp [dedupe, dedupeAux, hkey]

/-- Witness for C2 (Scenario C): two candidates identical except for
rawText collapse to the first one. -/
theorem dedupe_first_seen_wins_witness :
    dedupe [{ dateStr := "12/02/2026", timeStr := "16:40", opponent := "Czechia",
              venue := "Milano Rho", round := "Quarterfinal", rawText := "row A" },
            { dateStr := "12/02/2026", timeStr := "16:40", opponent := "Czechia",
              venue := "Milano Rho", round := "Quarterfinal", rawText := "row B" }] =
      [{ dateStr := "12/02/2026", timeStr := "16:40", opponent := "Czechia",
         venue := "Milano Rho", round := "Quarterfinal", rawText := "row A" }] :=
  (dedupe_first_seen_wins []).2.2.2.2 _ _ rfl rfl rfl

/-- C10: the deduplication key is the lowercased concatenation
dateStr-timeStr-opponent, and since "-" can occur inside the fields,
two candidates with different (dateStr, timeStr, opponent) triples can
share a key and collapse to a single record. -/
theorem dedup_key_not_injective :
    (∀ g : GameCandidate,
      dedupKey g = toLowerJS (g.dateStr ++ "-" ++ g.timeStr ++ "-" ++ g.opponent)) ∧
    (collideA.dateStr, collideA.timeStr, collideA.opponent) ≠
      (collideB.dateStr, collideB.timeStr, collideB.opponent) ∧
    dedupKey collideA = dedupKey collideB ∧
    dedupe [collideA, collideB] = [collideA] := by
  exact ⟨fun g => rfl, by decide, by decide, by decide⟩

/-- C3 (Scenario A): a record with dateStr "06/02/2026" and timeStr
"20:00" materializes to the start instant 2026-02-06T19:00:00Z (the local
wall clock minus the fixed 1-hour offset) and the end instant
2026-02-06T21:30:00Z (start plus 2 hours 30 minutes). -/
theorem scenarioA_materialization (url : String) (g : GameRecord)
    (hd : g.dateStr = "06/02/2026") (ht : g.timeStr = "20:00") :
    (materializeEvent url g).map (fun ev => (ev.startMs, ev.endMs)) =
      .ok (utcMillis 2026 2 6 19 0, utcMillis 2026 2 6 21 30) ∧
    utcMillis 2026 2 6 19 0 = 1770404400000 ∧
    utcMillis 2026 2 6 21 30 = 1770413400000 := by
  refine ⟨?_, by decide, by decide⟩
  have hp : parseDateTime g.dateStr g.timeStr = .ok 1770404400000 := by
    rw [hd, ht]; decide
  simp only [materializeEvent, hp, Except.map]
  decide

/-- Witness for C3: the first fallback game record. -/
theorem scenarioA_materialization_witness :
    (materializeEvent "src"
        { id := "", dateStr := "06/02/2026", timeStr := "20:00",
          opponent := "TBD", venue := "Milano Cortina 2026",
          round := "Preliminary", rawText := "" }).map
      (fun ev => (ev.startMs, ev.endMs)) =
      .ok (utcMillis 2026 2 6 19 0, utcMillis 2026 2 6 21 30) :=
  (scenarioA_materialization "src" _ rfl rfl).1

/-- C4: generateICS fails exactly when the games list is empty or every
game fails date/time parsing; a failing game is skipped while the batch
continues, and a returned document always carries at least one event. -/
theorem generateICS_failure_semantics (games : List GameRecord) (url : String) :
    ((generateICS games url).isOk = false ↔
      games = [] ∨
        ∀ g ∈ games, (parseDateTime g.dateStr g.timeStr).isOk = false) ∧
    (∀ evs, generateICS games url = .ok evs →
      evs = games.filterMap (fun g => (materializeEvent url g).toOption) ∧
      evs ≠ []) := by
  constructor
  · unfold generateICS
    by_cases hempty : games.length = 0
    · simp only [if_pos hempty]
      simp [Except.isOk, Except.toBool, List.length_eq_zero.mp hempty]
    · simp only [if_neg hempty]
      by_cases hev :
          (games.filterMap fun g => (materializeEvent url g).toOption).length = 0
      · rw [if_pos hev]
        simp only [Except.isOk, Except.toBool, List.length_eq_zero] at hev ⊢
        simp only [List.filterMap_eq_nil_iff] at hev
        constructor
        · intro _
          refine Or.inr fun g hg => ?_
          exact (materializeEvent_toOption_none url g).mp (hev g hg)
        · intro _; trivial
      · rw [if_neg hev]
        simp only [Except.isOk, Except.toBool, List.length_eq_zero] at hev ⊢
        simp only [List.filterMap_eq_nil_iff] at hev
        push_neg at hev
        obtain ⟨g, hg, hsome⟩ := hev
        constructor
        · intro h; exact absurd h (by simp)
        · rintro (rfl | hall)
          · simp at hempty
          · have := (materializeEvent_toOption_none url g).mpr (hall g hg)
            exact absurd this hsome
  · intro evs hok
    unfold generateICS at hok
    by_cases hempty : games.length = 0
    · rw [if_pos hempty] at hok; exact absurd hok (by simp)
    · rw [if_neg hempty] at hok
      by_cases hev :
          (games.filterMap fun g => (materializeEvent url g).toOption).length = 0
      · rw [if_pos hev] at hok; exact absurd hok (by simp)
      · rw [if_neg hev] at hok
        obtain rfl : evs = _ := (Except.ok.injEq _ _).mp hok.symm
        exact ⟨rfl, fun hc => hev (by simp [hc])⟩

/-- Witness for C4: an empty batch is rejected. -/
theorem generateICS_failure_semantics_witness :
    (generateICS [] "url").isOk = false :=
  (generateICS_failure_semantics [] "url").1.mpr (Or.inl rfl)

/-- C7: a date string of three numeric parts whose first and second
components are both at most 12 is resolved day-first as DD/MM/YYYY; in
particular "06/02/2026" parses to day 6, month February (0-indexed month
1), year 2026, and materializes into February, not June. -/
theorem ambiguous_date_day_first (ds p1 p2 p3 : String) (v1 v2 v3 : Int)
    (hsplit : splitDateSeps ds = [p1, p2, p3])
    (h1 : parseIntJS p1 = some v1) (h2 : parseIntJS p2 = some v2)
    (h3 : parseIntJS p3 = some v3)
    (hb1 : v1 ≤ 12) (hb2 : v2 ≤ 12) :
    parseDateParts ds = .ok (some v1, some (v2 - 1), some v3) ∧
    parseDateParts "06/02/2026" = .ok (some 6, some 1, some 2026) ∧
    parseDateTime "06/02/2026" "12:00" = .ok (utcMillis 2026 2 6 11 0) := by
  refine ⟨?_, by decide, by decide⟩
  unfold parseDateParts
  rw [hsplit]
  have e1 : optGtInt (some v1) 12 = false := by simp [optGtInt]; omega
  have e2 : optGtInt (some v2) 12 = false := by simp [optGtInt]; omega
  simp [h1, h2, h3, e1, e2]

/-- Witness for C7: the boundary date "06/02/2026" split into its three
parts. -/
theorem ambiguous_date_day_first_witness :
    parseDateParts "06/02/2026" = .ok (some 6, some 1, some 2026) :=
  (ambiguous_date_day_first "06/02/2026" "06" "02" "2026" 6 2 2026
    (by decide) (by decide) (by decide) (by decide) (by decide) (by decide)).2.1

/-- C5 (Scenario B): the feed entry CZE vs CAN at 2026-02-12T15:40:00Z
with a quarterfinal phase yields exactly one record with opponent
"Czechia" and round "Quarterfinal", and its materialized calendar event
starts exactly at 2026-02-12T15:40:00Z. -/
theorem scenarioB_pipeline :
    (parseIIHFAPI [scenarioBEntry]).map
        (List.map fun r => (r.opponent, r.round, r.dateStr, r.timeStr)) =
      .ok [("Czechia", "Quarterfinal", "12/02/2026", "16:40")] ∧
    (parseIIHFAPI [scenarioBEntry]).map
        (fun rs => (generateICS (rs.map apiToRecord) "u").map
          (List.map CalendarEvent.startMs)) =
      .ok (.ok [utcMillis 2026 2 12 15 40]) ∧
    utcMillis 2026 2 12 15 40 = 1770910800000 := by
  refine ⟨by decide, by decide, by decide⟩

/-- C6 (Scenario D): a feed entry flagged TBD, or not upcoming, or not
involving the tracked team, or whose resolved opponent code is missing or
"TBD", produces no record — even when the team codes match the tracked
team. -/
theorem iihf_entry_skip_conditions (e : APIGame)
    (h : e.GameIsTBD = true ∨ e.Status ≠ some "UPCOMING" ∨
      (e.HomeTeamCode ≠ some "CAN" ∧ e.GuestTeamCode ≠ some "CAN") ∨
      resolvedOpponentCode e = none ∨ resolvedOpponentCode e = some "TBD") :
    processEntry e = .ok none ∧ parseIIHFAPI [e] = .ok [] := by
  have hp : processEntry e = .ok none := by
    unfold processEntry
    by_cases h1 : e.GameIsTBD = true ∨ e.Status ≠ some "UPCOMING"
    · rw [if_pos (by simpa using h1)]
    · rw [if_neg (by simpa using h1)]
      by_cases h2 : e.HomeTeamCode ≠ some "CAN" ∧ e.GuestTeamCode ≠ some "CAN"
      · rw [if_pos h2]
      · rw [if_neg h2]
        have h45 : resolvedOpponentCode e = none ∨
            resolvedOpponentCode e = some "TBD" := by
          rcases h with h | h | h | h | h
          · exact absurd (Or.inl h) h1
          · exact absurd (Or.inr h) h1
          · exact absurd h h2
          · exact Or.inl h
          · exact Or.inr h
        rcases h45 with h45 | h45 <;> rw [h45]
        simp
  exact ⟨hp, by simp [parseIIHFAPI, List.foldlM, hp, Except.map]⟩

/-- Witness for C6: the TBD-flagged entry with matching team codes is
excluded entirely. -/
theorem iihf_entry_skip_conditions_witness :
    processEntry tbdFlaggedEntry = .ok none ∧
    parseIIHFAPI [tbdFlaggedEntry] = .ok [] :=
  iihf_entry_skip_conditions tbdFlaggedEntry (Or.inl rfl)

/-- C9 evaluation: a Canada feed entry whose GameDateTime field is absent
makes parseIIHFAPI throw (reading `.match` of undefined) instead of
skipping the entry, and the thrown error aborts the whole batch, losing
the remaining entries. -/
theorem iihf_missing_local_timestamp_throws :
    processEntry missingLocalTimeEntry =
      .error "TypeError: cannot read match of undefined" ∧
    parseIIHFAPI [missingLocalTimeEntry, scenarioBEntry] =
      .error "TypeError: cannot read match of undefined" ∧
    (parseIIHFAPI [missingLocalTimeEntry]).isOk = false := by
  refine ⟨by decide, by decide, by decide⟩

/-- C8 counterexample: the resolver lookups are not case-insensitive.
expandCountryCode maps the lowercase code "usa" to itself rather than to
"United States", and normalizeOpponent maps the lowercase code "cze" to
itself while "CZE" resolves to "Czechia". -/
theorem resolver_case_sensitivity_cex :
    expandCountryCode "usa" = "usa" ∧
    expandCountryCode "USA" = "United States" ∧
    ("usa" : String) ≠ "United States" ∧
    normalizeOpponent "cze" = "cze" ∧
    normalizeOpponent "CZE" = "Czechia" := by
  refine ⟨by decide, by decide, by decide, by decide, by decide⟩

/-- C8 amended: both resolvers are pure and total, with unknown input
returned unchanged. expandCountryCode looks its argument up verbatim
(case-sensitively), so only the exact uppercase codes resolve;
normalizeOpponent routes a 3-character input equal to its own uppercasing
through expandCountryCode and otherwise looks up the lowercased, trimmed
input in its name table, so free-text names (including the alternate
spellings "Czech Republic"/"Czechia" and "USA"/"US") are matched
case-insensitively onto one canonical display string. -/
theorem resolver_contract (s t : String) :
    (∀ v, codeMap.lookup s = some v → expandCountryCode s = v) ∧
    (codeMap.lookup s = none → expandCountryCode s = s) ∧
    ((s.length = 3 ∧ s = toUpperJS s) →
      normalizeOpponent s = expandCountryCode s) ∧
    (¬(s.length = 3 ∧ s = toUpperJS s) →
      normalizeOpponent s =
        (normalizations.lookup (trimJS (toLowerJS s))).getD s) ∧
    (¬(s.length = 3 ∧ s = toUpperJS s) → ¬(t.length = 3 ∧ t = toUpperJS t) →
      trimJS (toLowerJS s) = trimJS (toLowerJS t) →
      normalizations.lookup (trimJS (toLowerJS s)) ≠ none →
      normalizeOpponent s = normalizeOpponent t) ∧
    normalizeOpponent "Czech Republic" = "Czechia" ∧
    normalizeOpponent "CZECHIA" = "Czechia" ∧
    normalizeOpponent "USA" = "United States" ∧
    normalizeOpponent "us" = "United States" ∧
    normalizeOpponent "US" = "United States" := by
  refine ⟨?_, ?_, ?_, ?_, ?_, by decide, by decide, by decide, by decide, by decide⟩
  · intro v hv; unfold expandCountryCode; rw [hv]
  · intro hv; unfold expandCountryCode; rw [hv]
  · intro hcode; unfold normalizeOpponent; rw [if_pos hcode]
  · intro hcode
    unfold normalizeOpponent
    rw [if_neg hcode]
    cases hl : normalizations.lookup (trimJS (toLowerJS s)) <;> simp [hl]
  · intro hs ht hkey hfound
    unfold normalizeOpponent
    rw [if_neg hs, if_neg ht, ← hkey]
    cases hl : normalizations.lookup (trimJS (toLowerJS s)) with
    | none => exact absurd hl hfound
    | some v => simp [hl]

/-- Witness for C8 amended: the name lookup is case-insensitive on
free-text names — "Czech Republic" and "cZECH rEPUBLIC" resolve alike. -/
theorem resolver_contract_witness :
    normalizeOpponent "Czech Republic" = normalizeOpponent "cZECH rEPUBLIC" :=
  (resolver_contract "Czech Republic" "cZECH rEPUBLIC").2.2.2.2.1
    (by decide) (by decide) (by decide) (by decide)
